import Mathlib

/-!
Verification of the set-reconciliation and CRUD-handler behaviour of the
terraform-provider-azuread repository, via a shallow embedding of the Go
source into Lean.

Backend interactions are modelled as explicit outcome values passed to the
embedded handler functions, and the handlers' backend calls are modelled as
explicit call traces returned by those functions.
-/

namespace AzureAD

/-- Modelled from the spec: `utils.Difference` (internal/utils, not included
under src/) computes the list of identifiers of `a` that do not occur in `b`,
i.e. the set difference `a \ b` with exact string equality.  Callers in src/
use it as `toRemove = Difference existing desired` and
`toAdd = Difference desired existing`. -/
def Difference (a b : List String) : List String :=
  a.filter (fun x => !(b.contains x))

theorem mem_Difference {a b : List String} {x : String} :
    x ∈ Difference a b ↔ x ∈ a ∧ x ∉ b := by
  simp [Difference, List.mem_filter]

theorem Difference_self (l : List String) : Difference l l = [] := by
  simp [Difference, List.filter_eq_nil_iff]

/-- C1: With `toAdd = desired \ existing` and `toRemove = existing \ desired`,
the reconciliation satisfies `(existing ∪ toAdd) \ toRemove = desired`,
`toAdd ∩ toRemove = ∅`, `toAdd ∩ existing = ∅` and `toRemove ∩ desired = ∅`,
viewing the identifier lists as finite sets. -/
theorem reconcile_difference_correct (existing desired : List String) :
    ((existing.toFinset ∪ (Difference desired existing).toFinset) \
        (Difference existing desired).toFinset = desired.toFinset) ∧
    ((Difference desired existing).toFinset ∩
        (Difference existing desired).toFinset = ∅) ∧
    ((Difference desired existing).toFinset ∩ existing.toFinset = ∅) ∧
    ((Difference existing desired).toFinset ∩ desired.toFinset = ∅) := by
  refine ⟨?_, ?_, ?_, ?_⟩ <;>
    · ext x
      simp [mem_Difference]
      try tauto

/-! ### Backend call traces of the set-valued relationship handlers -/

/-- A backend call issued while reconciling a set-valued relationship
(owners, members). -/
inductive BackendCall where
  | addOwner (id : String)
  | addOwners (ids : List String)
  | removeOwner (id : String)
  | removeOwners (ids : List String)
  | addMembers (ids : List String)
  | removeMembers (ids : List String)
  deriving DecidableEq, Repr

def BackendCall.isAddCall : BackendCall → Bool
  | .addOwner _ => true
  | .addOwners _ => true
  | .addMembers _ => true
  | _ => false

def BackendCall.isRemoveCall : BackendCall → Bool
  | .removeOwner _ => true
  | .removeOwners _ => true
  | .removeMembers _ => true
  | _ => false

/-- Owners section of `groupResourceUpdateMsGraph`
(group_resource_msgraph.go, lines 199-225): computes removals and additions
with `utils.Difference`, issues `RemoveOwners` when the removal list is
non-nil, and afterwards `AddOwners` when the addition list is non-nil. -/
def groupUpdateOwnersTraceMsGraph (existingOwners desiredOwners : List String) :
    List BackendCall :=
  let ownersForRemoval := Difference existingOwners desiredOwners
  let ownersToAdd := Difference desiredOwners existingOwners
  (if ownersForRemoval ≠ [] then [BackendCall.removeOwners ownersForRemoval] else []) ++
  (if ownersToAdd ≠ [] then [BackendCall.addOwners ownersToAdd] else [])

/-- Members section of `groupResourceUpdateMsGraph`
(group_resource_msgraph.go, lines 171-197): `RemoveMembers` for the removal
list when non-nil, then `AddMembers` for the addition list when non-nil. -/
def groupUpdateMembersTraceMsGraph (existingMembers desiredMembers : List String) :
    List BackendCall :=
  let membersForRemoval := Difference existingMembers desiredMembers
  let membersToAdd := Difference desiredMembers existingMembers
  (if membersForRemoval ≠ [] then [BackendCall.removeMembers membersForRemoval] else []) ++
  (if membersToAdd ≠ [] then [BackendCall.addMembers membersToAdd] else [])

/-- `ApplicationSetOwners` (MS Graph helper, src/unnamed/part_002,
lines 144-174): `RemoveOwners` for the removal list when non-nil, then
`AddOwners` for the addition list when non-nil. -/
def applicationSetOwnersTraceMsGraph (existingOwners desiredOwners : List String) :
    List BackendCall :=
  let ownersForRemoval := Difference existingOwners desiredOwners
  let ownersToAdd := Difference desiredOwners existingOwners
  (if ownersForRemoval ≠ [] then [BackendCall.removeOwners ownersForRemoval] else []) ++
  (if ownersToAdd ≠ [] then [BackendCall.addOwners ownersToAdd] else [])

/-- `applicationSetOwnersTo` (application_resource.go, lines 934-958): adds
the owners to add first ("add owners first to prevent a possible situation
where terraform revokes its own access before adding it back"), then removes
each owner marked for removal with an individual `RemoveOwner` call.
`aadgraph.ApplicationAddOwners` is not under src/; modelled from the spec as
applying `toAdd` via an add call per owner. -/
def applicationSetOwnersToTrace (existingOwners desiredOwners : List String) :
    List BackendCall :=
  (Difference desiredOwners existingOwners).map BackendCall.addOwner ++
  (Difference existingOwners desiredOwners).map BackendCall.removeOwner

/-- Every add call in the trace is issued before every remove call. -/
def addsBeforeRemoves (tr : List BackendCall) : Prop :=
  ∀ i j : Fin tr.length,
    (tr.get i).isAddCall = true → (tr.get j).isRemoveCall = true → i.val < j.val

/-- Every remove call in the trace is issued before every add call. -/
def removesBeforeAdds (tr : List BackendCall) : Prop :=
  ∀ i j : Fin tr.length,
    (tr.get i).isRemoveCall = true → (tr.get j).isAddCall = true → i.val < j.val

instance (tr : List BackendCall) : Decidable (addsBeforeRemoves tr) := by
  unfold addsBeforeRemoves; infer_instance

instance (tr : List BackendCall) : Decidable (removesBeforeAdds tr) := by
  unfold removesBeforeAdds; infer_instance

theorem calls_ordered_append (p q : BackendCall → Bool) (l1 l2 : List BackendCall)
    (h1 : ∀ x ∈ l1, q x = false) (h2 : ∀ x ∈ l2, p x = false) :
    ∀ i j : Fin (l1 ++ l2).length,
      p ((l1 ++ l2).get i) = true → q ((l1 ++ l2).get j) = true → i.val < j.val := by
  intro i j hp hq
  have hlen : (l1 ++ l2).length = l1.length + l2.length := by simp
  have hi : i.val < l1.length := by
    by_contra hge
    push_neg at hge
    have hi2 : i.val - l1.length < l2.length := by
      have := i.isLt
      omega
    have hget : (l1 ++ l2).get i = l2[i.val - l1.length] := by
      simp only [List.get_eq_getElem]
      exact List.getElem_append_right hge
    rw [hget] at hp
    have hfalse := h2 _ (List.getElem_mem hi2)
    rw [hp] at hfalse
    simp at hfalse
  have hj : l1.length ≤ j.val := by
    by_contra hlt
    push_neg at hlt
    have hget : (l1 ++ l2).get j = l1[j.val] := by
      simp only [List.get_eq_getElem]
      exact List.getElem_append_left hlt
    rw [hget] at hq
    have hfalse := h1 _ (List.getElem_mem hlt)
    rw [hq] at hfalse
    simp at hfalse
  omega

theorem removesBeforeAdds_of_shape (rs adds : List BackendCall)
    (h1 : ∀ x ∈ rs, x.isAddCall = false) (h2 : ∀ x ∈ adds, x.isRemoveCall = false) :
    removesBeforeAdds (rs ++ adds) :=
  calls_ordered_append BackendCall.isRemoveCall BackendCall.isAddCall rs adds h1 h2

theorem addsBeforeRemoves_of_shape (adds rs : List BackendCall)
    (h1 : ∀ x ∈ adds, x.isRemoveCall = false) (h2 : ∀ x ∈ rs, x.isAddCall = false) :
    addsBeforeRemoves (adds ++ rs) :=
  calls_ordered_append BackendCall.isAddCall BackendCall.isRemoveCall adds rs h1 h2

theorem removesBeforeAdds_if_shape (c1 c2 : Prop) [Decidable c1] [Decidable c2]
    (r a : BackendCall) (hr : r.isAddCall = false) (ha : a.isRemoveCall = false) :
    removesBeforeAdds ((if c1 then [r] else []) ++ (if c2 then [a] else [])) := by
  apply removesBeforeAdds_of_shape <;> intro x hx
  · split at hx <;> simp_all
  · split at hx <;> simp_all

/-- C6: reconciling a desired set against itself yields empty add and remove
sets, and none of the relationship-update handlers issues any add or remove
backend call when the existing list equals the desired list. -/
theorem reconcile_idempotent (l : List String) :
    Difference l l = [] ∧
    groupUpdateOwnersTraceMsGraph l l = [] ∧
    groupUpdateMembersTraceMsGraph l l = [] ∧
    applicationSetOwnersTraceMsGraph l l = [] ∧
    applicationSetOwnersToTrace l l = [] := by
  have h := Difference_self l
  refine ⟨h, ?_, ?_, ?_, ?_⟩ <;>
    simp [groupUpdateOwnersTraceMsGraph, groupUpdateMembersTraceMsGraph,
      applicationSetOwnersTraceMsGraph, applicationSetOwnersToTrace, h]

/-- C2 counterexample: updating a group's owners from `{A, B}` to `{B, C}`
through `groupResourceUpdateMsGraph` issues the remove-call for `{A}` before
the add-call for `{C}`, so the adds are not issued before the removals. -/
theorem groupUpdateOwners_removes_first_counterexample :
    groupUpdateOwnersTraceMsGraph ["A", "B"] ["B", "C"] =
      [BackendCall.removeOwners ["A"], BackendCall.addOwners ["C"]] ∧
    ¬ addsBeforeRemoves (groupUpdateOwnersTraceMsGraph ["A", "B"] ["B", "C"]) := by
  constructor
  · decide
  · decide

/-- C2 amended: only `applicationSetOwnersTo` issues additions before
removals; the MS Graph group update handler (owners and members) and the MS
Graph `ApplicationSetOwners` helper issue removals before additions, and in
particular updating a group's owners from `{A, B}` to `{B, C}` issues the
remove-call for `{A}` before the add-call for `{C}`. -/
theorem owner_reconciliation_call_order (existing desired : List String) :
    addsBeforeRemoves (applicationSetOwnersToTrace existing desired) ∧
    removesBeforeAdds (groupUpdateOwnersTraceMsGraph existing desired) ∧
    removesBeforeAdds (groupUpdateMembersTraceMsGraph existing desired) ∧
    removesBeforeAdds (applicationSetOwnersTraceMsGraph existing desired) ∧
    groupUpdateOwnersTraceMsGraph ["A", "B"] ["B", "C"] =
      [BackendCall.removeOwners ["A"], BackendCall.addOwners ["C"]] := by
  refine ⟨?_, ?_, ?_, ?_, by decide⟩
  · apply addsBeforeRemoves_of_shape <;> intro x hx <;>
      rcases List.mem_map.mp hx with ⟨y, _, rfl⟩ <;> rfl
  · exact removesBeforeAdds_if_shape _ _ _ _ rfl rfl
  · exact removesBeforeAdds_if_shape _ _ _ _ rfl rfl
  · exact removesBeforeAdds_if_shape _ _ _ _ rfl rfl

/-! ### Backend outcomes and the Delete / Read handlers -/

/-- Outcome of a single backend API call as observed by a handler: success,
an error response reporting the object absent (HTTP 404 / NotFound), or any
other error. -/
inductive BackendOutcome where
  | ok
  | notFound
  | otherError
  deriving DecidableEq, Repr

/-- Result of a Delete handler: nil diagnostics or an error diagnostic. -/
inductive DeleteResult where
  | success
  | errorDiag
  deriving DecidableEq, Repr

/-- `groupResourceDeleteMsGraph` (group_resource_msgraph.go, lines 230-238):
any error from `client.Delete` is returned as an error diagnostic; there is
no NotFound check, so a NotFound error response is surfaced as an error. -/
def groupResourceDeleteMsGraph : BackendOutcome → DeleteResult
  | .ok => .success
  | .notFound => .errorDiag
  | .otherError => .errorDiag

/-- `groupResourceDeleteAadGraph` (groups_data_source_aadgraph.go, lines
310-320): an error from `client.Delete` is tolerated when the response was
NotFound, otherwise surfaced. -/
def groupResourceDeleteAadGraph : BackendOutcome → DeleteResult
  | .ok => .success
  | .notFound => .success
  | .otherError => .errorDiag

/-- The `client.Delete` stage of `applicationResourceDelete`
(application_resource.go, lines 669-674): a NotFound error response is
tolerated, any other error is surfaced. -/
def applicationDeleteCallResult : BackendOutcome → DeleteResult
  | .ok => .success
  | .notFound => .success
  | .otherError => .errorDiag

/-- `servicePrincipalResourceDelete` (src/unnamed/part_001, lines 196-208):
a NotFound error response from `client.Delete` is tolerated, any other error
is surfaced. -/
def servicePrincipalResourceDelete : BackendOutcome → DeleteResult
  | .ok => .success
  | .notFound => .success
  | .otherError => .errorDiag

/-- C3 counterexample: deleting a group through the MS Graph handler when the
backend reports NotFound returns an error diagnostic, not success. -/
theorem groupDeleteMsGraph_notFound_errors :
    groupResourceDeleteMsGraph BackendOutcome.notFound = DeleteResult.errorDiag ∧
    groupResourceDeleteMsGraph BackendOutcome.notFound ≠ DeleteResult.success := by
  decide

/-- C3 amended: the AAD Graph group delete, the application delete and the
service principal delete treat a backend NotFound as a successful no-op, but
the MS Graph group delete returns an error diagnostic on NotFound. -/
theorem delete_notFound_handling :
    groupResourceDeleteAadGraph BackendOutcome.notFound = DeleteResult.success ∧
    applicationDeleteCallResult BackendOutcome.notFound = DeleteResult.success ∧
    servicePrincipalResourceDelete BackendOutcome.notFound = DeleteResult.success ∧
    groupResourceDeleteMsGraph BackendOutcome.notFound = DeleteResult.errorDiag := by
  decide

/-- First step of a Read handler after the backend fetch: `removeFromState`
models `d.SetId("")` followed by returning nil diagnostics, `errorDiag`
models returning an error diagnostic, `proceed` models continuing with the
fetched object. -/
inductive ReadStep where
  | removeFromState
  | errorDiag
  | proceed
  deriving DecidableEq, Repr

/-- `groupResourceReadMsGraph` (group_resource_msgraph.go, lines 92-100). -/
def groupResourceReadMsGraphStep : BackendOutcome → ReadStep
  | .notFound => .removeFromState
  | .otherError => .errorDiag
  | .ok => .proceed

/-- `groupResourceReadAadGraph` (groups_data_source_aadgraph.go, lines
198-207). -/
def groupResourceReadAadGraphStep : BackendOutcome → ReadStep
  | .notFound => .removeFromState
  | .otherError => .errorDiag
  | .ok => .proceed

/-- `applicationResourceRead` (application_resource.go, lines 552-561). -/
def applicationResourceReadStep : BackendOutcome → ReadStep
  | .notFound => .removeFromState
  | .otherError => .errorDiag
  | .ok => .proceed

/-- `applicationResourceReadMsGraph` (application_resource.go, lines
1277-1286). -/
def applicationResourceReadMsGraphStep : BackendOutcome → ReadStep
  | .notFound => .removeFromState
  | .otherError => .errorDiag
  | .ok => .proceed

/-- `servicePrincipalResourceRead` (src/unnamed/part_001, lines 149-163). -/
def servicePrincipalResourceReadStep : BackendOutcome → ReadStep
  | .notFound => .removeFromState
  | .otherError => .errorDiag
  | .ok => .proceed

/-- C4: every resource Read handler maps a backend NotFound to the
"resource absent" signal (clear the stored ID, return no diagnostics) and
maps any other backend failure to an error diagnostic. -/
theorem read_notFound_signals_absence :
    (groupResourceReadMsGraphStep BackendOutcome.notFound = ReadStep.removeFromState ∧
      groupResourceReadMsGraphStep BackendOutcome.otherError = ReadStep.errorDiag) ∧
    (groupResourceReadAadGraphStep BackendOutcome.notFound = ReadStep.removeFromState ∧
      groupResourceReadAadGraphStep BackendOutcome.otherError = ReadStep.errorDiag) ∧
    (applicationResourceReadStep BackendOutcome.notFound = ReadStep.removeFromState ∧
      applicationResourceReadStep BackendOutcome.otherError = ReadStep.errorDiag) ∧
    (applicationResourceReadMsGraphStep BackendOutcome.notFound = ReadStep.removeFromState ∧
      applicationResourceReadMsGraphStep BackendOutcome.otherError = ReadStep.errorDiag) ∧
    (servicePrincipalResourceReadStep BackendOutcome.notFound = ReadStep.removeFromState ∧
      servicePrincipalResourceReadStep BackendOutcome.otherError = ReadStep.errorDiag) := by
  decide

/-! ### Update payloads: change detection (frame conditions) -/

/-- Inputs of `servicePrincipalResourceUpdate` (src/unnamed/part_001, lines
116-147): the per-field change flags reported by the framework
(`d.HasChange`) and the configured values (`d.Get` / `d.GetOk`). -/
structure SPUpdateInput where
  hasChangeAppRoleAssignmentRequired : Bool
  appRoleAssignmentRequired : Bool
  hasChangeTags : Bool
  tagsOk : Bool
  tags : List String
  deriving DecidableEq, Repr

/-- `graphrbac.ServicePrincipalUpdateParameters`: a `none` field is omitted
from the update payload. -/
structure SPUpdateParams where
  appRoleAssignmentRequired : Option Bool
  tags : Option (List String)
  deriving DecidableEq, Repr

/-- Payload construction of `servicePrincipalResourceUpdate`: each field is
set only under `d.HasChange`; a changed-but-unset tags value is cleared with
an explicit empty array. -/
def servicePrincipalUpdateParams (i : SPUpdateInput) : SPUpdateParams :=
  { appRoleAssignmentRequired :=
      if i.hasChangeAppRoleAssignmentRequired then some i.appRoleAssignmentRequired else none
    tags :=
      if i.hasChangeTags then (if i.tagsOk then some i.tags else some []) else none }

/-- Inputs of `applicationResourceUpdateMsGraph` (application_resource.go,
lines 1141-1245).  The expanded `optional_claims` and
`required_resource_access` configuration values are carried as opaque lists;
`hasChangeLogoutUrl`, `hasChangeIdentifierUris`,
`hasChangeOauth2AllowImplicitFlow` and `hasChangeAvailableToOtherTenants`
are the framework's change flags for those fields, which this handler never
consults. -/
structure MsAppUpdateInput where
  id : String
  hasChangeDisplayName : Bool
  displayName : String
  hasChangeName : Bool
  name : String
  identifierUrisOk : Bool
  identifierUris : List String
  hasChangeIdentifierUris : Bool
  optionalClaims : List String
  requiredResourceAccess : List String
  availableToOtherTenants : Bool
  hasChangeAvailableToOtherTenants : Bool
  oauth2AllowImplicitFlow : Bool
  hasChangeOauth2AllowImplicitFlow : Bool
  logoutUrl : String
  hasChangeLogoutUrl : Bool
  hasChangeGroupMembershipClaims : Bool
  groupMembershipClaimsOk : Bool
  groupMembershipClaims : String
  hasChangeHomepage : Bool
  homepage : String
  hasChangePublicClient : Bool
  publicClient : Bool
  hasChangeReplyUrls : Bool
  replyUrls : List String
  hasChangeType : Bool
  typeVal : String
  deriving DecidableEq, Repr

/-- `models.Application` as sent by `client.Update`: a `none` field is
omitted from the update payload; `signInAudience` is a plain string field
that is always serialized. -/
structure MsAppUpdateParams where
  id : Option String
  displayName : Option String
  identifierUris : Option (List String)
  optionalClaims : Option (List String)
  requiredResourceAccess : Option (List String)
  signInAudience : String
  webEnableAccessTokenIssuance : Option Bool
  webLogoutUrl : Option String
  webHomePageUrl : Option String
  groupMembershipClaims : Option String
  isFallbackPublicClient : Option Bool
  webRedirectUris : Option (List String)
  deriving DecidableEq, Repr

/-- Payload construction of `applicationResourceUpdateMsGraph`
(application_resource.go, lines 1171-1241): `identifier_uris`,
`optional_claims`, `required_resource_access`, `sign_in_audience`,
`oauth2_allow_implicit_flow` and `logout_url` are written into the payload
unconditionally; `display_name`, `group_membership_claims`, `homepage`,
`public_client` and `reply_urls` are gated on `d.HasChange`; a change of
`type` additionally rewrites `isFallbackPublicClient` and
`identifierUris`. -/
def applicationUpdateMsGraphParams (i : MsAppUpdateInput) : Except String MsAppUpdateParams :=
  if i.typeVal = "native" ∧ i.identifierUrisOk then
    Except.error "Property is not required for a native application"
  else
    let displayName :=
      if i.hasChangeDisplayName then i.displayName
      else if i.hasChangeName then i.name
      else ""
    let base : MsAppUpdateParams :=
      { id := some i.id
        displayName := if displayName ≠ "" then some displayName else none
        identifierUris := some i.identifierUris
        optionalClaims := some i.optionalClaims
        requiredResourceAccess := some i.requiredResourceAccess
        signInAudience :=
          if i.availableToOtherTenants then "AzureADMultipleOrgs" else "AzureADMyOrg"
        webEnableAccessTokenIssuance := some i.oauth2AllowImplicitFlow
        webLogoutUrl := some i.logoutUrl
        webHomePageUrl := if i.hasChangeHomepage then some i.homepage else none
        groupMembershipClaims :=
          if i.hasChangeGroupMembershipClaims then
            (if i.groupMembershipClaimsOk then some i.groupMembershipClaims else none)
          else none
        isFallbackPublicClient := if i.hasChangePublicClient then some i.publicClient else none
        webRedirectUris := if i.hasChangeReplyUrls then some i.replyUrls else none }
    if i.hasChangeType then
      if i.typeVal = "webapp/api" then
        Except.ok { base with
          isFallbackPublicClient := some false
          identifierUris := some i.identifierUris }
      else if i.typeVal = "native" then
        Except.ok { base with
          isFallbackPublicClient := some true
          identifierUris := some [] }
      else Except.error "Unknown application type"
    else Except.ok base

/-- An update input whose change flags are all false: nothing changed. -/
def msAppInputNoChange : MsAppUpdateInput :=
  { id := "00000000-0000-0000-0000-000000000001"
    hasChangeDisplayName := false
    displayName := "example app"
    hasChangeName := false
    name := "example app"
    identifierUrisOk := true
    identifierUris := ["api://example"]
    hasChangeIdentifierUris := false
    optionalClaims := ["claim1"]
    requiredResourceAccess := ["access1"]
    availableToOtherTenants := false
    hasChangeAvailableToOtherTenants := false
    oauth2AllowImplicitFlow := true
    hasChangeOauth2AllowImplicitFlow := false
    logoutUrl := "https://example.net/logout"
    hasChangeLogoutUrl := false
    hasChangeGroupMembershipClaims := false
    groupMembershipClaimsOk := false
    groupMembershipClaims := ""
    hasChangeHomepage := false
    homepage := "https://example.net"
    hasChangePublicClient := false
    publicClient := false
    hasChangeReplyUrls := false
    replyUrls := []
    hasChangeType := false
    typeVal := "webapp/api" }

/-- C5 counterexample: with every change flag false (no field changed), the
MS Graph application update payload still carries `logout_url`,
`identifier_uris`, `optional_claims`, `required_resource_access` and
`oauth2_allow_implicit_flow`, so unchanged fields are not omitted. -/
theorem msGraphUpdate_sends_unchanged_fields :
    msAppInputNoChange.hasChangeLogoutUrl = false ∧
    msAppInputNoChange.hasChangeIdentifierUris = false ∧
    (match applicationUpdateMsGraphParams msAppInputNoChange with
      | Except.ok p => p.webLogoutUrl
      | Except.error _ => none) = some "https://example.net/logout" ∧
    (match applicationUpdateMsGraphParams msAppInputNoChange with
      | Except.ok p => p.identifierUris
      | Except.error _ => none) = some ["api://example"] := by
  refine ⟨rfl, rfl, ?_, ?_⟩ <;> rfl

/-- C5 amended: `servicePrincipalResourceUpdate` includes a field in the
payload only when its change flag is set, and `applicationResourceUpdateMsGraph`
change-gates only `homepage`, `reply_urls`, `group_membership_claims`,
`public_client` (also rewritten on a `type` change) and `display_name`, while
`logout_url`, `optional_claims`, `required_resource_access`,
`oauth2_allow_implicit_flow`, `sign_in_audience` and `identifier_uris` are
included in every update payload regardless of change detection. -/
theorem update_payload_change_gating :
    (∀ i : SPUpdateInput,
      ((servicePrincipalUpdateParams i).appRoleAssignmentRequired ≠ none →
        i.hasChangeAppRoleAssignmentRequired = true) ∧
      ((servicePrincipalUpdateParams i).tags ≠ none → i.hasChangeTags = true)) ∧
    (∀ i p, applicationUpdateMsGraphParams i = Except.ok p →
      (p.webHomePageUrl ≠ none → i.hasChangeHomepage = true) ∧
      (p.webRedirectUris ≠ none → i.hasChangeReplyUrls = true) ∧
      (p.groupMembershipClaims ≠ none → i.hasChangeGroupMembershipClaims = true) ∧
      (p.isFallbackPublicClient ≠ none →
        i.hasChangePublicClient = true ∨ i.hasChangeType = true) ∧
      (p.displayName ≠ none →
        i.hasChangeDisplayName = true ∨ i.hasChangeName = true) ∧
      p.webLogoutUrl = some i.logoutUrl ∧
      p.optionalClaims = some i.optionalClaims ∧
      p.requiredResourceAccess = some i.requiredResourceAccess ∧
      p.webEnableAccessTokenIssuance = some i.oauth2AllowImplicitFlow ∧
      p.identifierUris ≠ none) := by
  constructor
  · intro i
    constructor <;> · simp only [servicePrincipalUpdateParams]; split <;> simp_all
  · intro i p h
    simp only [applicationUpdateMsGraphParams] at h
    split at h
    · exact absurd h (by simp)
    · split at h
      case isTrue hType =>
        split at h
        case isTrue hW =>
          cases h
          refine ⟨?_, ?_, ?_, fun _ => Or.inr hType, ?_, rfl, rfl, rfl, rfl, by simp⟩
          · simp only []; split <;> simp_all
          · simp only []; split <;> simp_all
          · simp only []; split <;> simp_all
          · simp only []
            by_cases h1 : i.hasChangeDisplayName <;> by_cases h2 : i.hasChangeName <;>
              simp [h1, h2]
        case isFalse hW =>
          split at h
          case isTrue hN =>
            cases h
            refine ⟨?_, ?_, ?_, fun _ => Or.inr hType, ?_, rfl, rfl, rfl, rfl, by simp⟩
            · simp only []; split <;> simp_all
            · simp only []; split <;> simp_all
            · simp only []; split <;> simp_all
            · simp only []
              by_cases h1 : i.hasChangeDisplayName <;> by_cases h2 : i.hasChangeName <;>
                simp [h1, h2]
          case isFalse hN => exact absurd h (by simp)
      case isFalse hType =>
        cases h
        refine ⟨?_, ?_, ?_, ?_, ?_, rfl, rfl, rfl, rfl, by simp⟩
        · simp only []; split <;> simp_all
        · simp only []; split <;> simp_all
        · simp only []; split <;> simp_all
        · simp only []; split <;> simp_all
        · simp only []
          by_cases h1 : i.hasChangeDisplayName <;> by_cases h2 : i.hasChangeName <;>
            simp [h1, h2]

/-- A service principal update input with only the tags marked changed. -/
def spInputTagsChange : SPUpdateInput :=
  { hasChangeAppRoleAssignmentRequired := false
    appRoleAssignmentRequired := false
    hasChangeTags := true
    tagsOk := true
    tags := ["tag1"] }

/-- An MS Graph application update input with only the homepage changed. -/
def msAppInputHomepageChange : MsAppUpdateInput :=
  { msAppInputNoChange with hasChangeHomepage := true }

/-- The payload produced for `msAppInputHomepageChange`. -/
def msAppParamsHomepageChange : MsAppUpdateParams :=
  { id := some "00000000-0000-0000-0000-000000000001"
    displayName := none
    identifierUris := some ["api://example"]
    optionalClaims := some ["claim1"]
    requiredResourceAccess := some ["access1"]
    signInAudience := "AzureADMyOrg"
    webEnableAccessTokenIssuance := some true
    webLogoutUrl := some "https://example.net/logout"
    webHomePageUrl := some "https://example.net"
    groupMembershipClaims := none
    isFallbackPublicClient := none
    webRedirectUris := none }

theorem update_payload_change_gating_witness :
    spInputTagsChange.hasChangeTags = true ∧
    msAppInputHomepageChange.hasChangeHomepage = true ∧
    msAppParamsHomepageChange.webLogoutUrl = some msAppInputHomepageChange.logoutUrl :=
  ⟨(update_payload_change_gating.1 spInputTagsChange).2 (by decide),
   (update_payload_change_gating.2 msAppInputHomepageChange msAppParamsHomepageChange
      rfl).1 (by decide),
   ((update_payload_change_gating.2 msAppInputHomepageChange msAppParamsHomepageChange
      rfl).2.2.2.2.2).1⟩

/-! ### Display-name matching and the duplicate-name guard -/

/-- `strings.EqualFold` restricted to the ASCII fragment exercised here:
case-insensitive equality obtained by lower-casing both sides character by
character. -/
def equalFold (a b : String) : Bool :=
  a.data.map Char.toLower == b.data.map Char.toLower

/-- A group as returned by the MS Graph list call, with the `*r.ID` and
`*r.DisplayName` fields the handler dereferences. -/
structure DirectoryGroup where
  id : String
  displayName : String
  deriving DecidableEq, Repr

/-- `GroupCheckNameAvailability` (internal/helpers/msgraph/group.go, lines
25-42): walks the filtered list, skips the caller's own object ID, and
returns the ID of the first group whose display name matches with
`strings.EqualFold`. -/
def GroupCheckNameAvailability (result : List DirectoryGroup) (displayName : String)
    (existingID : Option String) : Option String :=
  match result with
  | [] => none
  | r :: rest =>
    if existingID = some r.id then GroupCheckNameAvailability rest displayName existingID
    else if equalFold displayName r.displayName then some r.id
    else GroupCheckNameAvailability rest displayName existingID

/-- An application as returned by the MS Graph list call
(`app.ID`, `app.DisplayName` are nilable). -/
structure DirectoryApplication where
  id : Option String
  displayName : Option String
  deriving DecidableEq, Repr

/-- `ApplicationFindByName` (src/unnamed/part_002, lines 14-30): returns the
first application of the filtered list whose display name is non-nil and
equal to the requested name with exact, case-sensitive string equality. -/
def ApplicationFindByName (result : List DirectoryApplication) (displayName : String) :
    Option DirectoryApplication :=
  result.find? (fun app => app.displayName == some displayName)

/-- The member-existence check of `groupMemberResourceCreateAadGraph`
(group_data_source_aadgraph.go, lines 124-130): compares each existing
member against the candidate with `strings.EqualFold`. -/
def groupMemberExistsCheck (existingMembers : List String) (memberID : String) : Bool :=
  existingMembers.any (fun v => equalFold v memberID)

/-- C8: the strings "myname" and "MYNAME" differ only in ASCII letter case;
the group duplicate-name check and the group-member existence check treat
them as a match (case-insensitive), while the application duplicate-name
lookup treats them as distinct (exact equality). -/
theorem name_matching_case_sensitivity_inconsistent :
    equalFold "myname" "MYNAME" = true ∧
    GroupCheckNameAvailability [⟨"g1", "MYNAME"⟩] "myname" none = some "g1" ∧
    groupMemberExistsCheck ["MYNAME"] "myname" = true ∧
    ApplicationFindByName [⟨some "a1", some "MYNAME"⟩] "myname" = none ∧
    ApplicationFindByName [⟨some "a1", some "myname"⟩] "myname" =
      some ⟨some "a1", some "myname"⟩ := by
  refine ⟨by decide, by decide, by decide, by decide, by decide⟩

/-- How far a Create handler gets before the backend create call: an error
from the duplicate check, an import-as-duplicate error, or the create call
itself (`issueCreate`). -/
inductive CreatePrecheckStep where
  | checkError
  | duplicateError (existingId : String)
  | issueCreate
  deriving DecidableEq, Repr

/-- Pre-create phase of `groupResourceCreateMsGraph`
(group_resource_msgraph.go, lines 20-76): with `prevent_duplicate_names`
set, a failing list call aborts with an error, a name-availability hit
aborts with an import-as-duplicate error, and only otherwise is the backend
create call issued. -/
def groupCreateMsGraphPrecheck (preventDuplicateNames : Bool)
    (listOutcome : Except Unit (List DirectoryGroup)) (displayName : String) :
    CreatePrecheckStep :=
  if preventDuplicateNames then
    match listOutcome with
    | Except.error _ => CreatePrecheckStep.checkError
    | Except.ok result =>
      match GroupCheckNameAvailability result displayName none with
      | some id => CreatePrecheckStep.duplicateError id
      | none => CreatePrecheckStep.issueCreate
  else CreatePrecheckStep.issueCreate

/-- Pre-create phase of `applicationResourceCreateMsGraph`
(application_resource.go, lines 1020-1031): with `prevent_duplicate_names`
set, a hit from `ApplicationFindByName` aborts with an import-as-duplicate
error naming the found object ID (or "unknown" when nil). -/
def applicationCreateMsGraphPrecheck (preventDuplicateNames : Bool)
    (listOutcome : Except Unit (List DirectoryApplication)) (displayName : String) :
    CreatePrecheckStep :=
  if preventDuplicateNames then
    match listOutcome with
    | Except.error _ => CreatePrecheckStep.checkError
    | Except.ok result =>
      match ApplicationFindByName result displayName with
      | some app => CreatePrecheckStep.duplicateError (app.id.getD "unknown")
      | none => CreatePrecheckStep.issueCreate
  else CreatePrecheckStep.issueCreate

theorem checkNameAvailability_isSome_of_match
    {result : List DirectoryGroup} {displayName : String} {g : DirectoryGroup}
    (hmem : g ∈ result) (hname : equalFold displayName g.displayName = true) :
    (GroupCheckNameAvailability result displayName none).isSome = true := by
  induction result with
  | nil => cases hmem
  | cons r rest ih =>
    simp only [GroupCheckNameAvailability]
    rcases List.mem_cons.mp hmem with hg | hg
    · subst hg
      simp [hname]
    · by_cases hr : equalFold displayName r.displayName <;> simp [hr, ih hg]

/-- C7: with the duplicate-name guard enabled, if the backend list contains
another object of the same type with a matching display name, the Create
handler aborts with a duplicate error and never reaches the backend create
call, for both the MS Graph group Create and the MS Graph application
Create. -/
theorem create_duplicate_name_rejected
    (gs : List DirectoryGroup) (apps : List DirectoryApplication) (dn : String) :
    ((∃ g ∈ gs, equalFold dn g.displayName = true) →
      groupCreateMsGraphPrecheck true (Except.ok gs) dn ≠
        CreatePrecheckStep.issueCreate ∧
      ∃ id, groupCreateMsGraphPrecheck true (Except.ok gs) dn =
        CreatePrecheckStep.duplicateError id) ∧
    ((∃ a ∈ apps, a.displayName = some dn) →
      applicationCreateMsGraphPrecheck true (Except.ok apps) dn ≠
        CreatePrecheckStep.issueCreate ∧
      ∃ id, applicationCreateMsGraphPrecheck true (Except.ok apps) dn =
        CreatePrecheckStep.duplicateError id) := by
  constructor
  · rintro ⟨g, hmem, hname⟩
    have hsome := checkNameAvailability_isSome_of_match hmem hname
    obtain ⟨id, hid⟩ := Option.isSome_iff_exists.mp hsome
    simp [groupCreateMsGraphPrecheck, hid]
  · rintro ⟨a, hmem, hname⟩
    have hsome : (ApplicationFindByName apps dn).isSome := by
      rw [ApplicationFindByName, List.find?_isSome]
      exact ⟨a, hmem, by simp [hname]⟩
    obtain ⟨found, hfound⟩ := Option.isSome_iff_exists.mp hsome
    simp [applicationCreateMsGraphPrecheck, hfound]

theorem create_duplicate_name_rejected_witness :
    ((∃ g ∈ [(⟨"g1", "Team A"⟩ : DirectoryGroup)], equalFold "team a" g.displayName = true) ∧
      groupCreateMsGraphPrecheck true (Except.ok [(⟨"g1", "Team A"⟩ : DirectoryGroup)])
        "team a" ≠ CreatePrecheckStep.issueCreate) ∧
    ((∃ a ∈ [(⟨some "a1", some "app one"⟩ : DirectoryApplication)],
        a.displayName = some "app one") ∧
      applicationCreateMsGraphPrecheck true
        (Except.ok [(⟨some "a1", some "app one"⟩ : DirectoryApplication)]) "app one" ≠
        CreatePrecheckStep.issueCreate) :=
  ⟨⟨⟨⟨"g1", "Team A"⟩, by decide, by decide⟩,
    ((create_duplicate_name_rejected [⟨"g1", "Team A"⟩] [] "team a").1
      ⟨⟨"g1", "Team A"⟩, by decide, by decide⟩).1⟩,
   ⟨⟨⟨some "a1", some "app one"⟩, by decide, by decide⟩,
    ((create_duplicate_name_rejected [] [⟨some "a1", some "app one"⟩] "app one").2
      ⟨⟨some "a1", some "app one"⟩, by decide, by decide⟩).1⟩⟩

/-! ### Application delete: clearing the multi-tenant flag first -/

/-- A backend call issued by `applicationResourceDelete`. -/
inductive AppDeleteCall where
  | patchAvailableToOtherTenants (value : Bool)
  | deleteApplication
  deriving DecidableEq, Repr

/-- Calls issued and final result of one `applicationResourceDelete` run. -/
structure AppDeleteRun where
  calls : List AppDeleteCall
  result : DeleteResult
  deriving DecidableEq, Repr

/-- `applicationResourceDelete` (application_resource.go, lines 653-677):
when `available_to_other_tenants` is set in state, first patch the
application with the flag cleared and abort on any patch error; then issue
the delete call, tolerating a NotFound response. -/
def applicationResourceDelete (availableToOtherTenants : Bool)
    (patchOutcome deleteOutcome : BackendOutcome) : AppDeleteRun :=
  if availableToOtherTenants then
    match patchOutcome with
    | BackendOutcome.ok =>
      { calls := [AppDeleteCall.patchAvailableToOtherTenants false,
                  AppDeleteCall.deleteApplication]
        result := applicationDeleteCallResult deleteOutcome }
    | _ =>
      { calls := [AppDeleteCall.patchAvailableToOtherTenants false]
        result := DeleteResult.errorDiag }
  else
    { calls := [AppDeleteCall.deleteApplication]
      result := applicationDeleteCallResult deleteOutcome }

/-- C9: with the `available_to_other_tenants` flag set the handler first
issues the flag-clearing patch; the delete call is issued only when that
patch succeeded; and without the flag no patch precedes the delete. -/
theorem applicationDelete_clears_flag_first
    (patchOutcome deleteOutcome : BackendOutcome) :
    (applicationResourceDelete true patchOutcome deleteOutcome).calls.head? =
      some (AppDeleteCall.patchAvailableToOtherTenants false) ∧
    (patchOutcome ≠ BackendOutcome.ok →
      AppDeleteCall.deleteApplication ∉
        (applicationResourceDelete true patchOutcome deleteOutcome).calls ∧
      (applicationResourceDelete true patchOutcome deleteOutcome).result =
        DeleteResult.errorDiag) ∧
    (patchOutcome = BackendOutcome.ok →
      (applicationResourceDelete true patchOutcome deleteOutcome).calls =
        [AppDeleteCall.patchAvailableToOtherTenants false,
         AppDeleteCall.deleteApplication]) ∧
    (applicationResourceDelete false patchOutcome deleteOutcome).calls =
      [AppDeleteCall.deleteApplication] := by
  cases patchOutcome <;> cases deleteOutcome <;>
    refine ⟨rfl, fun h => ?_, fun h => ?_, rfl⟩ <;> simp_all <;> decide

theorem applicationDelete_clears_flag_first_witness :
    AppDeleteCall.deleteApplication ∉
      (applicationResourceDelete true BackendOutcome.otherError BackendOutcome.ok).calls ∧
    (applicationResourceDelete true BackendOutcome.ok BackendOutcome.ok).calls =
      [AppDeleteCall.patchAvailableToOtherTenants false,
       AppDeleteCall.deleteApplication] :=
  ⟨((applicationDelete_clears_flag_first BackendOutcome.otherError
      BackendOutcome.ok).2.1 (by decide)).1,
   (applicationDelete_clears_flag_first BackendOutcome.ok
      BackendOutcome.ok).2.2.1 rfl⟩

/-! ### Object-ID validation after Create -/

/-- `applicationResourceCreate` ID check (application_resource.go, lines
379-383): `app.ObjectID == nil || *app.ObjectID == ""` aborts with an error,
otherwise the ID is stored with `d.SetId`. -/
def applicationCreateIdCheck : Option String → Except String String
  | none => Except.error "Object ID returned for application is nil/empty"
  | some id =>
    if id = "" then Except.error "Object ID returned for application is nil/empty"
    else Except.ok id

/-- `servicePrincipalResourceCreate` ID check (src/unnamed/part_001, lines
101-104): nil or empty object ID aborts with an error. -/
def servicePrincipalCreateIdCheck : Option String → Except String String
  | none => Except.error "ObjectID returned for service principal is nil"
  | some id =>
    if id = "" then Except.error "ObjectID returned for service principal is nil"
    else Except.ok id

/-- `groupResourceCreateAadGraph` ID check (groups_data_source_aadgraph.go,
lines 154-158): nil or empty object ID aborts with an error. -/
def groupCreateAadGraphIdCheck : Option String → Except String String
  | none => Except.error "API returned group with nil object ID"
  | some id =>
    if id = "" then Except.error "API returned group with nil object ID"
    else Except.ok id

/-- `groupResourceCreateMsGraph` ID check (group_resource_msgraph.go, lines
72-76): only `group.ID == nil` is rejected; any non-nil ID, including the
empty string, is stored with `d.SetId`. -/
def groupCreateMsGraphIdCheck : Option String → Except String String
  | none => Except.error "API returned group with nil object ID"
  | some id => Except.ok id

/-- `true` when the ID check aborted the Create with an error. -/
def createIdCheckErrored : Except String String → Bool
  | Except.error _ => true
  | Except.ok _ => false

/-- C10 counterexample: the MS Graph group Create accepts a backend response
whose object ID is the empty string and stores `""` as the resource ID
instead of returning an error. -/
theorem groupCreateMsGraph_accepts_empty_id :
    groupCreateMsGraphIdCheck (some "") = Except.ok "" ∧
    createIdCheckErrored (groupCreateMsGraphIdCheck (some "")) = false := by
  refine ⟨rfl, rfl⟩

/-- C10 amended: the application, service principal and AAD Graph group
Creates return an error exactly when the backend returns a nil or empty
object ID; the MS Graph group Create returns an error only for a nil ID and
accepts any non-nil ID — including the empty string — as the stored
resource identifier. -/
theorem create_id_validation :
    (∀ o : Option String,
      createIdCheckErrored (applicationCreateIdCheck o) = true ↔
        (o = none ∨ o = some "")) ∧
    (∀ o : Option String,
      createIdCheckErrored (servicePrincipalCreateIdCheck o) = true ↔
        (o = none ∨ o = some "")) ∧
    (∀ o : Option String,
      createIdCheckErrored (groupCreateAadGraphIdCheck o) = true ↔
        (o = none ∨ o = some "")) ∧
    (∀ o : Option String,
      createIdCheckErrored (groupCreateMsGraphIdCheck o) = true ↔ o = none) ∧
    (∀ id : String, groupCreateMsGraphIdCheck (some id) = Except.ok id) := by
  refine ⟨?_, ?_, ?_, ?_, fun id => rfl⟩ <;>
    · rintro (_ | id)
      · simp [applicationCreateIdCheck, servicePrincipalCreateIdCheck,
          groupCreateAadGraphIdCheck, groupCreateMsGraphIdCheck, createIdCheckErrored]
      · by_cases h : id = "" <;>
          simp [applicationCreateIdCheck, servicePrincipalCreateIdCheck,
            groupCreateAadGraphIdCheck, groupCreateMsGraphIdCheck,
            createIdCheckErrored, h]

theorem create_id_validation_witness :
    groupCreateMsGraphIdCheck (some "x") = Except.ok "x" :=
  create_id_validation.2.2.2.2 "x"

theorem reconcile_difference_correct_witness :
    (Difference ["b"] ["a"]).toFinset ∩ (["a"] : List String).toFinset = ∅ :=
  (reconcile_difference_correct ["a"] ["b"]).2.2.1

theorem owner_reconciliation_call_order_witness :
    groupUpdateOwnersTraceMsGraph ["A", "B"] ["B", "C"] =
      [BackendCall.removeOwners ["A"], BackendCall.addOwners ["C"]] :=
  (owner_reconciliation_call_order ["A", "B"] ["B", "C"]).2.2.2.2

theorem reconcile_idempotent_witness :
    Difference ["x"] ["x"] = [] :=
  (reconcile_idempotent ["x"]).1

end AzureAD
